import Mathlib

/-!
Verification of the aitelier FSM agent runtime.

This file shallowly embeds the core of `src/aitelier` in Lean 4:
the shared execution context (`add_to_memory`, `validate_step`),
the `Tool` wrapper, the ReAct state machine (`ThinkState`, `ActState`,
`ObserveState`, `ErrorState`, `EndState`), the single-step agent machine
(`AgentStartState`, `AgentLLMState`, `AgentErrorState`), and the two
driver loops (`FSMAgent.__call__` and `ReActAgent.__call__`).

Python strings are embedded as Lean `String`; the Python `str` methods
used by the source (`strip`, `split`, `replace`, `startswith`,
`endswith`) are reimplemented below with matching semantics on the
character lists.  The model responder is an oracle function
`List Msg → String`; a tool body is a function `A → Except String String`
whose `.error` case stands for a raised Python exception; the Python
`eval` used for argument decoding is an oracle `String → Except String A`.
-/

namespace Aitelier

/-! ## Python string primitives -/

/-- Python `str.strip()` with no argument: remove leading and trailing
whitespace characters. -/
def pyStrip (s : String) : String :=
  ⟨((s.data.dropWhile Char.isWhitespace).reverse.dropWhile Char.isWhitespace).reverse⟩

/-- If `sep` is a leading segment of `s`, return the remainder of `s`. -/
def matchSep : List Char → List Char → Option (List Char)
  | [], s => some s
  | _ :: _, [] => none
  | c :: cs, d :: ds => if c = d then matchSep cs ds else none

/-- Fuel-driven worker for `pySplit`; `fuel ≥ s.length` guarantees the
fuel never runs out. -/
def pySplitAux (sep : List Char) : Nat → List Char → List Char → List (List Char)
  | _, [], acc => [acc.reverse]
  | 0, s, acc => [acc.reverse ++ s]
  | Nat.succ fuel, c :: rest, acc =>
    match matchSep sep (c :: rest) with
    | some r => acc.reverse :: pySplitAux sep fuel r []
    | none => pySplitAux sep fuel rest (c :: acc)

/-- Python `s.split(sep)` for a non-empty separator `sep`: split `s` at
every non-overlapping occurrence of `sep`, scanning left to right. -/
def pySplit (sep : String) (s : String) : List String :=
  if sep.data.isEmpty then [s]
  else (pySplitAux sep.data s.data.length s.data []).map fun l => ⟨l⟩

/-- Python `s.replace(a, b)`: replace every occurrence of `a` by `b`. -/
def pyReplace (s a b : String) : String :=
  String.intercalate b (pySplit a s)

/-- Python `s.startswith(p)`. -/
def pyStartsWith (s p : String) : Bool :=
  List.isPrefixOf p.data s.data

/-- Python `s.endswith(p)`. -/
def pyEndsWith (s p : String) : Bool :=
  List.isPrefixOf p.data.reverse s.data.reverse

/-! ## Conversation memory and the execution context operations -/

/-- One conversation-memory entry: the `{"role": ..., "content": ...}`
dictionaries stored in `AgentContext.memory`. -/
structure Msg where
  role : String
  content : String
deriving DecidableEq, Repr

/-- A transition table (`valid_steps`): mapping from a state kind to the
collection of permitted next kinds, embedded as an association list. -/
abbrev TransitionTable := List (String × List String)

/-- Dictionary lookup in a transition table. -/
def ttLookup (t : TransitionTable) (k : String) : Option (List String) :=
  match t with
  | [] => none
  | (k', v) :: rest => if k' = k then some v else ttLookup rest k

/-- Python truthiness of the optional `valid_steps` dictionary: `None`
and the empty dict are falsy. -/
def ttTruthy : Option TransitionTable → Bool
  | none => false
  | some t => !t.isEmpty

/-- Python truthiness of the optional `stop_word` string: `None` and the
empty string are falsy. -/
def stopWordTruthy : Option String → Bool
  | none => false
  | some s => !(s = "")

/-- `AgentContext.add_to_memory` (src/aitelier/agents/_base.py and
base.py, identical): if the stop word is truthy and the stripped content
does not already end with it, append a space and the stop word; then
strip and store a new `{"role", "content"}` entry at the end of memory. -/
def add_to_memory (stop_word : Option String) (memory : List Msg)
    (role content : String) : List Msg :=
  let content1 :=
    if stopWordTruthy stop_word && !(pyEndsWith (pyStrip content) (stop_word.getD "")) then
      content ++ " " ++ stop_word.getD ""
    else content
  memory ++ [⟨role, pyStrip content1⟩]

/-- `AgentContext.validate_step` (src/aitelier/agents/_base.py): with a
falsy table return `True`; with `from_state` missing raise
`StateStepError`; with `to_state` not in the permitted collection raise
`StateStepError`; otherwise return `False`.  A raised `StateStepError`
is embedded as `Except.error` carrying the message. -/
def validate_step (valid_steps : Option TransitionTable)
    (from_state to_state : String) : Except String Bool :=
  if !(ttTruthy valid_steps) then
    Except.ok true
  else
    match ttLookup (valid_steps.getD []) from_state with
    | none => Except.error ("Invalid step from " ++ from_state ++ " to " ++ to_state)
    | some allowed =>
      if !(allowed.contains to_state) then
        Except.error ("Invalid step from " ++ from_state ++ " to " ++ to_state
          ++ ". Valid steps are: " ++ toString allowed)
      else
        Except.ok false

/-! ## The Tool wrapper (src/aitelier/tool/tool.py) -/

namespace Tool

/-- `Tool.execute`: run the wrapped callable; a raised exception `e` is
caught and `str(e)` is returned as the result. -/
def execute {A : Type} (tool : A → Except String String) (a : A) : String :=
  match tool a with
  | Except.ok r => r
  | Except.error e => e

/-- `Tool.__call__`: delegates to `execute`; since `execute` catches
every exception, the call itself never raises, hence always `Except.ok`. -/
def call {A : Type} (tool : A → Except String String) (a : A) : Except String String :=
  Except.ok (execute tool a)

end Tool

/-! ## The ReAct state machine (src/aitelier/agents/react.py) -/

/-- An exception escaping a state `execute` into the driver loop:
`MaxRetryError` or a `StateStepError` raised by `validate_step`. -/
inductive AgErr where
  | maxRetry (msg : String)
  | stateStep (msg : String)
deriving DecidableEq, Repr

/-- The ReAct states.  Constructors carry exactly the payload the Python
state objects carry into `execute`: `ThinkState.retry_count`,
`ObserveState.observation`, `ErrorState.error` (already stringified by
`ErrorState.__init__`), and `EndState.final_response`. -/
inductive RState where
  | think (retry_count : Nat)
  | act
  | observe (observation : String)
  | error (msg : String)
  | endState (final_response : String)
deriving DecidableEq, Repr

/-- `DEFAULT_REACT_VALID_STEPS` from react.py. -/
def DEFAULT_REACT_VALID_STEPS : TransitionTable :=
  [ ("THINK", ["THINK", "ACT", "END", "ERROR"]),
    ("ACT", ["OBSERVE", "ERROR"]),
    ("OBSERVE", ["THINK", "ACT", "ERROR"]),
    ("END", []),
    ("ERROR", ["END"]) ]

/-- The corrective message `ThinkState.execute` embeds in the
`ErrorState` when the response label is unrecognized. -/
def thinkErrorMsg (response : String) : String :=
  "Expected Think, Act, or End at the beginning of the answer, got: "
    ++ response ++ ". Your next answer must start with Think:, Act:, or End:."

/-- Result of one `ThinkState.execute`: whether `model.generate` was
reached, the memory afterwards, the next state (or the exception that
escaped), and the `(from, to)` pairs passed to `validate_step`. -/
structure ThinkOut where
  modelCalled : Bool
  memory : List Msg
  result : Except AgErr RState
  validated : List (String × String)
deriving Repr

/-- `ThinkState.execute` (react.py): raise `MaxRetryError` when the retry
counter has reached `max_retries`; otherwise call the model, classify the
stripped response by its leading label, validate the corresponding
transition, and append the raw response to memory in the recognized
branches (the unrecognized branch returns an `ErrorState` without
appending).  Token/timing bookkeeping has no effect on memory or control
flow and is omitted. -/
def thinkExec (valid_steps : Option TransitionTable) (max_retries : Nat)
    (stop_word : Option String) (model : List Msg → String)
    (retry_count : Nat) (memory : List Msg) : ThinkOut :=
  if max_retries ≤ retry_count then
    ⟨false, memory,
      Except.error (AgErr.maxRetry ("Max retries " ++ toString max_retries ++ " reached.")), []⟩
  else
    let response := model memory
    if pyStartsWith (pyStrip response) "Think:" then
      match validate_step valid_steps "THINK" "THINK" with
      | Except.error m => ⟨true, memory, Except.error (AgErr.stateStep m), [("THINK", "THINK")]⟩
      | Except.ok _ =>
        ⟨true, add_to_memory stop_word memory "assistant" response,
          Except.ok (RState.think (retry_count + 1)), [("THINK", "THINK")]⟩
    else if pyStartsWith (pyStrip response) "Act:" then
      match validate_step valid_steps "THINK" "ACT" with
      | Except.error m => ⟨true, memory, Except.error (AgErr.stateStep m), [("THINK", "ACT")]⟩
      | Except.ok _ =>
        ⟨true, add_to_memory stop_word memory "assistant" response,
          Except.ok RState.act, [("THINK", "ACT")]⟩
    else if pyStartsWith (pyStrip response) "End:" then
      match validate_step valid_steps "THINK" "END" with
      | Except.error m => ⟨true, memory, Except.error (AgErr.stateStep m), [("THINK", "END")]⟩
      | Except.ok _ =>
        ⟨true, add_to_memory stop_word memory "assistant" response,
          Except.ok (RState.endState response), [("THINK", "END")]⟩
    else
      match validate_step valid_steps "THINK" "ERROR" with
      | Except.error m => ⟨true, memory, Except.error (AgErr.stateStep m), [("THINK", "ERROR")]⟩
      | Except.ok _ =>
        ⟨true, memory, Except.ok (RState.error (thinkErrorMsg response)), [("THINK", "ERROR")]⟩

/-- The source's branch conditions in `ThinkState.execute`: the stripped
response starts with one of the three recognized labels. -/
def recognizedLabel (response : String) : Bool :=
  pyStartsWith (pyStrip response) "Think:"
    || pyStartsWith (pyStrip response) "Act:"
    || pyStartsWith (pyStrip response) "End:"

/-- Result of one `ErrorState.execute` / `ObserveState.execute`. -/
structure RExec where
  memory : List Msg
  result : Except AgErr RState
  validated : List (String × String)
deriving Repr

/-- `ErrorState.execute` (react.py): append `"ERROR: <error>"` to memory
as role `assistant` and return a fresh `ThinkState` with retry counter 0.
No call to `validate_step` is made. -/
def errorExec (stop_word : Option String) (error : String)
    (memory : List Msg) : RExec :=
  ⟨add_to_memory stop_word memory "assistant" ("ERROR: " ++ error),
    Except.ok (RState.think 0), []⟩

/-- `ObserveState.execute` (react.py): append `"Observe: <observation>"`
as role `assistant`, validate OBSERVE→THINK — any exception in the `try`
block (only `validate_step` can raise) is caught and converted into an
`ErrorState` — then return a fresh `ThinkState`. -/
def observeExec (valid_steps : Option TransitionTable) (stop_word : Option String)
    (observation : String) (memory : List Msg) : RExec :=
  let memory1 := add_to_memory stop_word memory "assistant" ("Observe: " ++ observation)
  match validate_step valid_steps "OBSERVE" "THINK" with
  | Except.error m => ⟨memory1, Except.ok (RState.error m), [("OBSERVE", "THINK")]⟩
  | Except.ok _ => ⟨memory1, Except.ok (RState.think 0), [("OBSERVE", "THINK")]⟩

/-- Registry lookup: `context.tools[tool_name]` membership/access. -/
def regLookup {A : Type} : List (String × A) → String → Option A
  | [], _ => none
  | (k, v) :: rest, n => if k = n then some v else regLookup rest n

/-- `ActState._extract` (react.py): take the content before the stop word
(if one is configured), drop the `"Act: "` marker, pull the tool name
from between `<tool>` tags and the argument text from between `<args>`
tags, and decode the argument text with `eval` (embedded as the oracle
`evalArgs`; its failure is the `ParsingToolError` branch). -/
def actExtract {A : Type} (evalArgs : String → Except String A)
    (stop_word : Option String) (content : String) : Except String (String × A) :=
  let act_content :=
    if stopWordTruthy stop_word then
      pyReplace ((pySplit (stop_word.getD "") content).headD "") "Act: " ""
    else
      pyReplace content "Act: " ""
  let tool_name :=
    (pySplit "</tool>" ((pySplit "<tool>" act_content).getLastD "")).headD ""
  let args_text :=
    (pySplit "</args>" ((pySplit "<args>" act_content).getLastD "")).headD ""
  match evalArgs args_text with
  | Except.error e =>
    Except.error ("While parsing tool got this error " ++ e
      ++ ". Your previous answer was: " ++ act_content
      ++ ". You have to be sure that the Act state is provided in the correct format.")
  | Except.ok args => Except.ok (tool_name, args)

/-- Result of one `ActState.execute`, with flags recording whether the
registry was consulted and whether the `except` branch around the tool
call (the one building a `ToolExecutionError`) was taken. -/
structure ActOut where
  memory : List Msg
  result : Except AgErr RState
  validated : List (String × String)
  toolLookedUp : Bool
  toolExecRaised : Bool
deriving Repr

/-- `ActState.execute` (react.py): extract the tool call from the last
memory entry (`ParsingToolError` → `ErrorState`); look the name up in the
registry (missing → `ErrorState(ToolNotFoundError)`); invoke the tool
(a raised exception → `ErrorState(ToolExecutionError)`); validate
ACT→OBSERVE (a raise here propagates) and return an `ObserveState`
carrying the result. -/
def actExec {A : Type} (evalArgs : String → Except String A)
    (valid_steps : Option TransitionTable) (stop_word : Option String)
    (tools : List (String × (A → Except String String)))
    (memory : List Msg) : ActOut :=
  let memory_content := (memory.getLastD ⟨"", ""⟩).content
  match actExtract evalArgs stop_word memory_content with
  | Except.error m => ⟨memory, Except.ok (RState.error m), [], false, false⟩
  | Except.ok (tool_name, tool_args) =>
    match regLookup tools tool_name with
    | none =>
      ⟨memory, Except.ok (RState.error "Selected tool not found between tools. Fix it."),
        [], true, false⟩
    | some tool =>
      match tool tool_args with
      | Except.error e =>
        ⟨memory, Except.ok (RState.error ("Tool execution failed: " ++ e)),
          [], true, true⟩
      | Except.ok result =>
        match validate_step valid_steps "ACT" "OBSERVE" with
        | Except.error m =>
          ⟨memory, Except.error (AgErr.stateStep m), [("ACT", "OBSERVE")], true, false⟩
        | Except.ok _ =>
          ⟨memory, Except.ok (RState.observe result), [("ACT", "OBSERVE")], true, false⟩

/-- One `state.execute(context)` dispatch for the ReAct machine,
projected to what the driver observes: the memory afterwards and the
next state or escaped exception.  `EndState.execute` returns itself. -/
def rStepExec {A : Type} (evalArgs : String → Except String A)
    (valid_steps : Option TransitionTable) (max_retries : Nat)
    (stop_word : Option String) (model : List Msg → String)
    (tools : List (String × (A → Except String String))) :
    RState → List Msg → List Msg × Except AgErr RState
  | RState.think r, mem =>
    let o := thinkExec valid_steps max_retries stop_word model r mem
    (o.memory, o.result)
  | RState.act, mem =>
    let o := actExec evalArgs valid_steps stop_word tools mem
    (o.memory, o.result)
  | RState.observe obs, mem =>
    let o := observeExec valid_steps stop_word obs mem
    (o.memory, o.result)
  | RState.error e, mem =>
    let o := errorExec stop_word e mem
    (o.memory, o.result)
  | RState.endState r, mem => (mem, Except.ok (RState.endState r))

/-- `isinstance(state, EndState)` for the ReAct machine. -/
def isEndR : RState → Bool
  | RState.endState _ => true
  | _ => false

/-! ## The single-step agent machine (src/aitelier/agents/agent.py) -/

/-- The agent states of agent.py: `AgentStartState`, `AgentLLMState`,
`AgentErrorState` (its error already stringified by `__post_init__`),
and the shared `EndState` of _base.py. -/
inductive AState where
  | start (message : String)
  | llm
  | error (msg : String)
  | endState (response : String)
deriving DecidableEq, Repr

/-- `AGENT_VALID_STEPS` from agent.py. -/
def AGENT_VALID_STEPS : TransitionTable :=
  [ ("START", ["LLM"]),
    ("LLM", ["LLM", "END", "ERROR"]),
    ("ERROR", ["LLM"]),
    ("END", []) ]

/-- `AgentLLMState._parse_response` (agent.py): cut at `end_tag` when one
is configured, strip, pull the tool name from between the `tool_tag`
tags and the argument text from between the `args_tag` tags, and decode
the argument text with `eval` (oracle `evalArgs`); any decoding failure
is the `ParsingToolError` branch. -/
def parseResponse {A : Type} (evalArgs : String → Except String A)
    (end_tag : Option String) (tool_tag args_tag : String)
    (response : String) : Except String (String × A) :=
  let state_response :=
    match end_tag with
    | some t => (pySplit t response).headD ""
    | none => response
  let state_response := pyStrip state_response
  let tool_name :=
    (pySplit ("</" ++ tool_tag ++ ">")
      ((pySplit ("<" ++ tool_tag ++ ">") state_response).getLastD "")).headD ""
  let args_text :=
    (pySplit ("</" ++ args_tag ++ ">")
      ((pySplit ("<" ++ args_tag ++ ">") state_response).getLastD "")).headD ""
  match evalArgs args_text with
  | Except.error e => Except.error e
  | Except.ok args => Except.ok (tool_name, args)

/-- The message of `ParsingToolError(response=response)`
(src/aitelier/errors/base.py), abbreviated. -/
def parsingToolMsg (response : String) : String :=
  "An error occurred while parsing the tool from the response: " ++ response ++ "."

/-- The message of `ToolNotFoundError(tool_name, available_tools)`
(src/aitelier/errors/base.py), abbreviated. -/
def toolNotFoundMsg (tool_name : String) (available_tools : List String) : String :=
  "You selected the tool " ++ tool_name
    ++ ", but it is not available in the list of available tools: "
    ++ toString available_tools ++ ". Pick one of the available tools and try again."

/-- The message of `ToolExecutionError(tool, args, error)`
(src/aitelier/errors/base.py), abbreviated (the argument mapping is not
rendered). -/
def toolExecutionMsg (tool : String) (error : String) : String :=
  "An error occurred while executing the tool " ++ tool
    ++ ". The error message is: " ++ error
    ++ ". Please check the tool documentation and the arguments you provided and try again."

/-- Result of one `AgentLLMState.execute`, with flags recording whether
the registry was consulted (`context.tools[tool_name]`), whether the
tool was invoked, and whether the `except` branch around the tool call
(the one building a `ToolExecutionError`) was taken. -/
structure LLMOut where
  memory : List Msg
  result : Except AgErr AState
  lookedUp : Bool
  toolCalled : Bool
  toolExecRaised : Bool
deriving Repr

/-- `AgentLLMState.execute` (agent.py) with the dataclass defaults
`tool_tag="tool"`, `args_tag="args"`, `end_tag=None`: call the model,
append the raw response to memory as role `assistant`, then parse it
(failure → `AgentErrorState(ParsingToolError)`).  The literal tool name
`"None"` returns `EndState(response)` directly; otherwise look the tool
up (`KeyError` → `AgentErrorState(ToolNotFoundError)`), invoke it (a
raise → `AgentErrorState(ToolExecutionError)`), validate LLM→END (a
raise here propagates) and return `EndState(result)`. -/
def llmExec {A : Type} (evalArgs : String → Except String A)
    (valid_steps : Option TransitionTable) (stop_word : Option String)
    (model : List Msg → String)
    (tools : List (String × (A → Except String String)))
    (memory : List Msg) : LLMOut :=
  let response := model memory
  let memory1 := add_to_memory stop_word memory "assistant" response
  match parseResponse evalArgs none "tool" "args" response with
  | Except.error _ =>
    ⟨memory1, Except.ok (AState.error (parsingToolMsg response)), false, false, false⟩
  | Except.ok (tool_name, tool_args) =>
    if tool_name = "None" then
      ⟨memory1, Except.ok (AState.endState response), false, false, false⟩
    else
      match regLookup tools tool_name with
      | none =>
        ⟨memory1,
          Except.ok (AState.error (toolNotFoundMsg tool_name (tools.map Prod.fst))),
          true, false, false⟩
      | some tool =>
        match tool tool_args with
        | Except.error e =>
          ⟨memory1, Except.ok (AState.error (toolExecutionMsg tool_name e)),
            true, true, true⟩
        | Except.ok result =>
          match validate_step valid_steps "LLM" "END" with
          | Except.error m =>
            ⟨memory1, Except.error (AgErr.stateStep m), true, true, false⟩
          | Except.ok _ =>
            ⟨memory1, Except.ok (AState.endState result), true, true, false⟩

/-- `AgentErrorState.execute` (agent.py): append `"Error: <error>"` to
memory as role `assistant` and return a fresh `AgentLLMState`. -/
def agentErrorExec (stop_word : Option String) (error : String)
    (memory : List Msg) : List Msg × AState :=
  (add_to_memory stop_word memory "assistant" ("Error: " ++ error), AState.llm)

/-- One `state.execute(context)` dispatch for the agent machine:
`AgentStartState.execute` appends the user message and returns the LLM
state; `EndState.execute` returns itself. -/
def aStepExec {A : Type} (evalArgs : String → Except String A)
    (valid_steps : Option TransitionTable) (stop_word : Option String)
    (model : List Msg → String)
    (tools : List (String × (A → Except String String))) :
    AState → List Msg → List Msg × Except AgErr AState
  | AState.start message, mem =>
    (add_to_memory stop_word mem "user" message, Except.ok AState.llm)
  | AState.llm, mem =>
    let o := llmExec evalArgs valid_steps stop_word model tools mem
    (o.memory, o.result)
  | AState.error e, mem =>
    let o := agentErrorExec stop_word e mem
    (o.1, Except.ok o.2)
  | AState.endState r, mem => (mem, Except.ok (AState.endState r))

/-- `isinstance(state, EndState)` for the agent machine. -/
def isEndA : AState → Bool
  | AState.endState _ => true
  | _ => false

/-! ## The two driver loops -/

/-- How a `FSMAgent.__call__` run ends: the current state is an
`EndState`; the iteration counter reached `max_iters` (a printed,
normal termination); `MaxRetryError` was raised by a state and caught;
or another exception (a `StateStepError`) propagated out of the loop.
`fuelOut` is an artifact of the fuel-based embedding and is unreachable
when the fuel is at least `max_iters - step_iter`. -/
inductive FsmOutcome where
  | endReached
  | iterLimit
  | retryLimit
  | raisedStep (msg : String)
  | fuelOut
deriving DecidableEq, Repr

/-- The observable result of a `FSMAgent.__call__` run: final memory,
last current state, final `step_iter`, and how the loop ended. -/
structure FsmOut (σ : Type) where
  memory : List Msg
  state : σ
  stepIter : Nat
  outcome : FsmOutcome
deriving Repr

/-- `FSMAgent.__call__` (src/aitelier/agents/_base.py): while the current
state is not an `EndState`, first break when `step_iter == max_iters`,
then execute the current state — `MaxRetryError` is caught and breaks the
loop, any other exception propagates — record the new state and increment
`step_iter`.  Embedded with fuel; one unit is consumed per execution. -/
def fsmLoop {σ : Type} (exec : σ → List Msg → List Msg × Except AgErr σ)
    (isEnd : σ → Bool) (max_iters : Nat) :
    Nat → Nat → σ → List Msg → FsmOut σ
  | fuel, step_iter, cur, mem =>
    if isEnd cur then ⟨mem, cur, step_iter, FsmOutcome.endReached⟩
    else if step_iter = max_iters then ⟨mem, cur, step_iter, FsmOutcome.iterLimit⟩
    else
      match fuel with
      | 0 => ⟨mem, cur, step_iter, FsmOutcome.fuelOut⟩
      | Nat.succ fuel =>
        match exec cur mem with
        | (mem', Except.error (AgErr.maxRetry _)) =>
          ⟨mem', cur, step_iter, FsmOutcome.retryLimit⟩
        | (mem', Except.error (AgErr.stateStep m)) =>
          ⟨mem', cur, step_iter, FsmOutcome.raisedStep m⟩
        | (mem', Except.ok new) => fsmLoop exec isEnd max_iters fuel (step_iter + 1) new mem'

/-- A full `FSMAgent.__call__` run: `step_iter` starts at 0, the seeded
start state is current, and `max_iters` units of fuel make `fuelOut`
unreachable. -/
def fsmRun {σ : Type} (exec : σ → List Msg → List Msg × Except AgErr σ)
    (isEnd : σ → Bool) (max_iters : Nat) (start : σ) (mem : List Msg) : FsmOut σ :=
  fsmLoop exec isEnd max_iters max_iters 0 start mem

/-- How a `ReActAgent.__call__` run ends: the while condition saw an
`EndState`; `MaxRetryError` propagated (it is not caught there); a
`StateStepError` propagated; or the embedding fuel ran out (the source
loop has no iteration bound — reaching `max_iters` only prints). -/
inductive ReactOutcome where
  | ended (response : String)
  | raisedMaxRetry
  | raisedStateStep (msg : String)
  | fuelOut
deriving DecidableEq, Repr

/-- The observable result of a `ReActAgent.__call__` run: final memory,
final `context.step_iter`, how often the max-iterations message was
printed, and how the loop ended. -/
structure ReactOut where
  memory : List Msg
  stepIter : Nat
  reported : Nat
  outcome : ReactOutcome
deriving Repr

/-- `ReActAgent.__call__` loop (react.py): while the state is not an
`EndState`, increment `context.step_iter`, execute the state (exceptions
propagate), record and print the step, and — when `step_iter` equals
`max_iters` and the new state is not an `EndState` — print a
max-iterations message *without breaking*.  The loop itself has no bound,
hence the explicit fuel. -/
def reactLoop {A : Type} (evalArgs : String → Except String A)
    (valid_steps : Option TransitionTable) (max_retries : Nat)
    (stop_word : Option String) (model : List Msg → String)
    (tools : List (String × (A → Except String String))) (max_iters : Nat) :
    Nat → Nat → RState → List Msg → ReactOut
  | fuel, step_iter, state, mem =>
    match state with
    | RState.endState r => ⟨mem, step_iter, 0, ReactOutcome.ended r⟩
    | state =>
      match fuel with
      | 0 => ⟨mem, step_iter, 0, ReactOutcome.fuelOut⟩
      | Nat.succ fuel =>
        let si := step_iter + 1
        match rStepExec evalArgs valid_steps max_retries stop_word model tools state mem with
        | (mem', Except.error (AgErr.maxRetry _)) =>
          ⟨mem', si, 0, ReactOutcome.raisedMaxRetry⟩
        | (mem', Except.error (AgErr.stateStep m)) =>
          ⟨mem', si, 0, ReactOutcome.raisedStateStep m⟩
        | (mem', Except.ok s2) =>
          let rep := if si = max_iters && !(isEndR s2) then 1 else 0
          let out := reactLoop evalArgs valid_steps max_retries stop_word model tools
            max_iters fuel si s2 mem'
          ⟨out.memory, out.stepIter, out.reported + rep, out.outcome⟩

/-- A full `ReActAgent.__call__` run: memory starts with the system
prompt (set by `ReActAgent.__init__`), then the user message is appended
through `add_to_memory`, and the first state is `ThinkState()` with retry
counter 0. -/
def reactRun {A : Type} (evalArgs : String → Except String A)
    (valid_steps : Option TransitionTable) (max_retries : Nat)
    (stop_word : Option String) (model : List Msg → String)
    (tools : List (String × (A → Except String String))) (max_iters : Nat)
    (system_prompt message : String) (fuel : Nat) : ReactOut :=
  reactLoop evalArgs valid_steps max_retries stop_word model tools max_iters
    fuel 0 (RState.think 0)
    (add_to_memory stop_word [⟨"system", system_prompt⟩] "user" message)

/-! ## Helper lemmas -/

/-- Looking a name up in a registry whose values were all wrapped by `g`
finds the wrapped version of whatever the raw registry holds. -/
theorem regLookup_map {A B : Type} (g : A → B) (l : List (String × A)) (n : String) :
    regLookup (l.map fun p => (p.1, g p.2)) n = (regLookup l n).map g := by
  induction l with
  | nil => rfl
  | cons hd tl ih =>
    obtain ⟨k, v⟩ := hd
    simp only [List.map_cons, regLookup]
    by_cases h : k = n
    · simp [h]
    · simp [h, ih]

/-- The default ReAct table permits THINK→THINK (and the code then
returns `False`, see C1). -/
theorem vsDefThinkThink :
    validate_step (some DEFAULT_REACT_VALID_STEPS) "THINK" "THINK" = Except.ok false := rfl

/-- The default ReAct table permits THINK→ACT. -/
theorem vsDefThinkAct :
    validate_step (some DEFAULT_REACT_VALID_STEPS) "THINK" "ACT" = Except.ok false := rfl

/-- The default ReAct table permits THINK→END. -/
theorem vsDefThinkEnd :
    validate_step (some DEFAULT_REACT_VALID_STEPS) "THINK" "END" = Except.ok false := rfl

/-- The default ReAct table permits THINK→ERROR. -/
theorem vsDefThinkError :
    validate_step (some DEFAULT_REACT_VALID_STEPS) "THINK" "ERROR" = Except.ok false := rfl

/-- `add_to_memory` appends exactly one entry. -/
theorem add_to_memory_append (sw : Option String) (mem : List Msg) (role content : String) :
    ∃ e, add_to_memory sw mem role content = mem ++ [e] := ⟨_, rfl⟩

/-- `ThinkState.execute` never removes from memory: it appends a
(possibly empty) suffix. -/
theorem thinkExec_mem_mono (vs : Option TransitionTable) (mr : Nat)
    (sw : Option String) (model : List Msg → String) (r : Nat) (mem : List Msg) :
    ∃ t, (thinkExec vs mr sw model r mem).memory = mem ++ t := by
  simp only [thinkExec]
  repeat' split
  all_goals first
    | exact ⟨[], (List.append_nil mem).symm⟩
    | exact ⟨_, rfl⟩

/-- `ActState.execute` leaves memory untouched. -/
theorem actExec_mem_eq (A : Type) (evalArgs : String → Except String A)
    (vs : Option TransitionTable) (sw : Option String)
    (tools : List (String × (A → Except String String))) (mem : List Msg) :
    (actExec evalArgs vs sw tools mem).memory = mem := by
  simp only [actExec]
  repeat' split
  all_goals rfl

/-- `AgentLLMState.execute` always appends exactly the raw response. -/
theorem llmExec_mem_eq (A : Type) (evalArgs : String → Except String A)
    (vs : Option TransitionTable) (sw : Option String) (model : List Msg → String)
    (tools : List (String × (A → Except String String))) (mem : List Msg) :
    (llmExec evalArgs vs sw model tools mem).memory
      = add_to_memory sw mem "assistant" (model mem) := by
  simp only [llmExec]
  repeat' split
  all_goals rfl

/-- Every ReAct state execution only appends to memory. -/
theorem rStep_mem_mono (A : Type) (evalArgs : String → Except String A)
    (vs : Option TransitionTable) (mr : Nat) (sw : Option String)
    (model : List Msg → String) (tools : List (String × (A → Except String String)))
    (s : RState) (mem : List Msg) :
    ∃ t, (rStepExec evalArgs vs mr sw model tools s mem).1 = mem ++ t := by
  cases s with
  | think r => exact thinkExec_mem_mono vs mr sw model r mem
  | act =>
    exact ⟨[], by
      simp only [rStepExec]
      rw [actExec_mem_eq, List.append_nil]⟩
  | observe obs =>
    simp only [rStepExec, observeExec]
    split
    · exact ⟨_, rfl⟩
    · exact ⟨_, rfl⟩
  | error e => exact ⟨_, rfl⟩
  | endState r => exact ⟨[], (List.append_nil mem).symm⟩

/-- Every agent state execution only appends to memory. -/
theorem aStep_mem_mono (A : Type) (evalArgs : String → Except String A)
    (vs : Option TransitionTable) (sw : Option String) (model : List Msg → String)
    (tools : List (String × (A → Except String String)))
    (s : AState) (mem : List Msg) :
    ∃ t, (aStepExec evalArgs vs sw model tools s mem).1 = mem ++ t := by
  cases s with
  | start m => exact ⟨_, rfl⟩
  | llm =>
    obtain ⟨e, he⟩ := add_to_memory_append sw mem "assistant" (model mem)
    refine ⟨[e], ?_⟩
    simp only [aStepExec]
    rw [llmExec_mem_eq, he]
  | error e => exact ⟨_, rfl⟩
  | endState r => exact ⟨[], (List.append_nil mem).symm⟩

/-- The `FSMAgent.__call__` loop only appends to memory, provided each
state execution does. -/
theorem fsmLoop_mem_mono {σ : Type} (exec : σ → List Msg → List Msg × Except AgErr σ)
    (isEnd : σ → Bool) (max_iters : Nat)
    (hexec : ∀ s mem, ∃ t, (exec s mem).1 = mem ++ t) :
    ∀ fuel step_iter s mem,
      ∃ t, (fsmLoop exec isEnd max_iters fuel step_iter s mem).memory = mem ++ t := by
  intro fuel
  induction fuel with
  | zero =>
    intro si s mem
    refine ⟨[], ?_⟩
    rw [List.append_nil]
    by_cases hend : isEnd s = true
    · simp [fsmLoop, hend]
    · by_cases hsi : si = max_iters
      · simp [fsmLoop, hend, hsi]
      · simp [fsmLoop, hend, hsi]
  | succ fuel ih =>
    intro si s mem
    by_cases hend : isEnd s = true
    · exact ⟨[], by simp [fsmLoop, hend]⟩
    · by_cases hsi : si = max_iters
      · exact ⟨[], by simp [fsmLoop, hend, hsi]⟩
      · obtain ⟨t1, h1⟩ := hexec s mem
        rcases hx : exec s mem with ⟨mem', res⟩
        rw [hx] at h1
        simp only [] at h1
        subst h1
        cases res with
        | error e =>
          cases e with
          | maxRetry m => exact ⟨t1, by simp [fsmLoop, hend, hsi, hx]⟩
          | stateStep m => exact ⟨t1, by simp [fsmLoop, hend, hsi, hx]⟩
        | ok new =>
          obtain ⟨t2, h2⟩ := ih (si + 1) new (mem ++ t1)
          exact ⟨t1 ++ t2, by
            simp only [fsmLoop, hend, hsi, hx]
            simp [h2, List.append_assoc]⟩

/-- The `ReActAgent.__call__` loop only appends to memory. -/
theorem reactLoop_mem_mono (A : Type) (evalArgs : String → Except String A)
    (vs : Option TransitionTable) (mr : Nat) (sw : Option String)
    (model : List Msg → String) (tools : List (String × (A → Except String String)))
    (max_iters : Nat) :
    ∀ fuel step_iter s mem,
      ∃ t, (reactLoop evalArgs vs mr sw model tools max_iters fuel step_iter s mem).memory
        = mem ++ t := by
  intro fuel
  induction fuel with
  | zero =>
    intro si s mem
    refine ⟨[], ?_⟩
    rw [List.append_nil]
    cases s <;> simp [reactLoop]
  | succ fuel ih =>
    intro si s mem
    cases s with
    | endState r => exact ⟨[], by simp [reactLoop]⟩
    | think r =>
      obtain ⟨t1, h1⟩ := rStep_mem_mono A evalArgs vs mr sw model tools (RState.think r) mem
      rcases hx : rStepExec evalArgs vs mr sw model tools (RState.think r) mem with ⟨mem', res⟩
      rw [hx] at h1
      simp only [] at h1
      subst h1
      cases res with
      | error e =>
        cases e with
        | maxRetry m => exact ⟨t1, by simp [reactLoop, hx]⟩
        | stateStep m => exact ⟨t1, by simp [reactLoop, hx]⟩
      | ok s2 =>
        obtain ⟨t2, h2⟩ := ih (si + 1) s2 (mem ++ t1)
        exact ⟨t1 ++ t2, by
          simp only [reactLoop, hx]
          simp [h2, List.append_assoc]⟩
    | act =>
      obtain ⟨t1, h1⟩ := rStep_mem_mono A evalArgs vs mr sw model tools RState.act mem
      rcases hx : rStepExec evalArgs vs mr sw model tools RState.act mem with ⟨mem', res⟩
      rw [hx] at h1
      simp only [] at h1
      subst h1
      cases res with
      | error e =>
        cases e with
        | maxRetry m => exact ⟨t1, by simp [reactLoop, hx]⟩
        | stateStep m => exact ⟨t1, by simp [reactLoop, hx]⟩
      | ok s2 =>
        obtain ⟨t2, h2⟩ := ih (si + 1) s2 (mem ++ t1)
        exact ⟨t1 ++ t2, by
          simp only [reactLoop, hx]
          simp [h2, List.append_assoc]⟩
    | observe obs =>
      obtain ⟨t1, h1⟩ := rStep_mem_mono A evalArgs vs mr sw model tools (RState.observe obs) mem
      rcases hx : rStepExec evalArgs vs mr sw model tools (RState.observe obs) mem with ⟨mem', res⟩
      rw [hx] at h1
      simp only [] at h1
      subst h1
      cases res with
      | error e =>
        cases e with
        | maxRetry m => exact ⟨t1, by simp [reactLoop, hx]⟩
        | stateStep m => exact ⟨t1, by simp [reactLoop, hx]⟩
      | ok s2 =>
        obtain ⟨t2, h2⟩ := ih (si + 1) s2 (mem ++ t1)
        exact ⟨t1 ++ t2, by
          simp only [reactLoop, hx]
          simp [h2, List.append_assoc]⟩
    | error e =>
      obtain ⟨t1, h1⟩ := rStep_mem_mono A evalArgs vs mr sw model tools (RState.error e) mem
      rcases hx : rStepExec evalArgs vs mr sw model tools (RState.error e) mem with ⟨mem', res⟩
      rw [hx] at h1
      simp only [] at h1
      subst h1
      cases res with
      | error err =>
        cases err with
        | maxRetry m => exact ⟨t1, by simp [reactLoop, hx]⟩
        | stateStep m => exact ⟨t1, by simp [reactLoop, hx]⟩
      | ok s2 =>
        obtain ⟨t2, h2⟩ := ih (si + 1) s2 (mem ++ t1)
        exact ⟨t1 ++ t2, by
          simp only [reactLoop, hx]
          simp [h2, List.append_assoc]⟩

/-- With the driver's exact fuel discipline (`step_iter + fuel =
max_iters`, as set up by `fsmRun`), the embedding artifact `fuelOut`
never occurs: the FSMAgent loop always terminates in one of the four
source-level ways. -/
theorem fsmLoop_no_fuelOut {σ : Type} (exec : σ → List Msg → List Msg × Except AgErr σ)
    (isEnd : σ → Bool) (max_iters : Nat) :
    ∀ fuel step_iter s mem, step_iter + fuel = max_iters →
      (fsmLoop exec isEnd max_iters fuel step_iter s mem).outcome ≠ FsmOutcome.fuelOut := by
  intro fuel
  induction fuel with
  | zero =>
    intro si s mem hsi
    by_cases hend : isEnd s = true
    · simp [fsmLoop, hend]
    · simp [fsmLoop, hend, show si = max_iters by omega]
  | succ fuel ih =>
    intro si s mem hsi
    by_cases hend : isEnd s = true
    · simp [fsmLoop, hend]
    · by_cases heq : si = max_iters
      · simp [fsmLoop, hend, heq]
      · rcases hx : exec s mem with ⟨mem', res⟩
        cases res with
        | error e =>
          cases e with
          | maxRetry m => simp [fsmLoop, hend, heq, hx]
          | stateStep m => simp [fsmLoop, hend, heq, hx]
        | ok new =>
          have h2 := ih (si + 1) new mem' (by omega)
          simp only [fsmLoop, hend, heq, hx]
          simpa using h2

/-- When the FSMAgent loop reports `endReached`, the final current state
really is an End state (the while-condition). -/
theorem fsmLoop_endReached_isEnd {σ : Type} (exec : σ → List Msg → List Msg × Except AgErr σ)
    (isEnd : σ → Bool) (max_iters : Nat) :
    ∀ fuel step_iter s mem,
      (fsmLoop exec isEnd max_iters fuel step_iter s mem).outcome = FsmOutcome.endReached →
      isEnd (fsmLoop exec isEnd max_iters fuel step_iter s mem).state = true := by
  intro fuel
  induction fuel with
  | zero =>
    intro si s mem
    by_cases hend : isEnd s = true
    · simp [fsmLoop, hend]
    · by_cases heq : si = max_iters <;> simp [fsmLoop, hend, heq]
  | succ fuel ih =>
    intro si s mem
    by_cases hend : isEnd s = true
    · simp [fsmLoop, hend]
    · by_cases heq : si = max_iters
      · simp [fsmLoop, hend, heq]
      · rcases hx : exec s mem with ⟨mem', res⟩
        cases res with
        | error e =>
          cases e with
          | maxRetry m => simp [fsmLoop, hend, heq, hx]
          | stateStep m => simp [fsmLoop, hend, heq, hx]
        | ok new =>
          have h2 := ih (si + 1) new mem'
          simp only [fsmLoop, hend, heq, hx]
          simpa using h2

/-- If every execution of a non-End state succeeds and yields a non-End
state, the FSMAgent loop runs to the iteration ceiling: it stops with
`iterLimit`, a final `step_iter` of exactly `max_iters`, and no End
state. -/
theorem fsmLoop_nonend_iterLimit {σ : Type} (exec : σ → List Msg → List Msg × Except AgErr σ)
    (isEnd : σ → Bool) (max_iters : Nat)
    (hexec : ∀ s mem, isEnd s = false →
      ∃ mem2 s2, exec s mem = (mem2, Except.ok s2) ∧ isEnd s2 = false) :
    ∀ fuel step_iter s mem, isEnd s = false → step_iter + fuel = max_iters →
      (fsmLoop exec isEnd max_iters fuel step_iter s mem).outcome = FsmOutcome.iterLimit
      ∧ (fsmLoop exec isEnd max_iters fuel step_iter s mem).stepIter = max_iters
      ∧ isEnd (fsmLoop exec isEnd max_iters fuel step_iter s mem).state = false := by
  intro fuel
  induction fuel with
  | zero =>
    intro si s mem hs hsi
    have hmax : si = max_iters := by omega
    refine ⟨?_, ?_, ?_⟩ <;> simp [fsmLoop, hs, hmax]
  | succ fuel ih =>
    intro si s mem hs hsi
    have hne : ¬ si = max_iters := by omega
    obtain ⟨mem2, s2, hx, hs2⟩ := hexec s mem hs
    have h2 := ih (si + 1) s2 mem2 hs2 (by omega)
    refine ⟨?_, ?_, ?_⟩ <;> simp only [fsmLoop, hs, hne, hx] <;>
      simp [h2.1, h2.2.1, h2.2.2]

/-- With an argument decoder that always fails (every model response is
unparseable), every non-End agent state executes successfully into
another non-End state: START → LLM, LLM → ERROR (parsing failure),
ERROR → LLM. -/
theorem aStep_parse_fail_nonend (A : Type) (e0 : String)
    (vs : Option TransitionTable) (sw : Option String) (model : List Msg → String)
    (tools : List (String × (A → Except String String))) :
    ∀ s mem, isEndA s = false →
      ∃ mem2 s2,
        aStepExec (fun _ => Except.error e0) vs sw model tools s mem = (mem2, Except.ok s2)
        ∧ isEndA s2 = false := by
  intro s mem hs
  cases s with
  | start m => exact ⟨_, _, rfl, rfl⟩
  | llm => exact ⟨_, _, rfl, rfl⟩
  | error e => exact ⟨_, _, rfl, rfl⟩
  | endState r => simp [isEndA] at hs

/-- Under the default table, a model that always answers with a `Think:`
label drives the ReAct loop from `ThinkState(retry_count)` to a raised
`MaxRetryError` after exactly `max_retries - retry_count + 1` further
executions, independent of `max_iters`. -/
theorem reactLoop_thinkForever (A : Type) (evalArgs : String → Except String A)
    (sw : Option String) (model : List Msg → String)
    (tools : List (String × (A → Except String String)))
    (max_iters max_retries : Nat)
    (hm : ∀ m, pyStartsWith (pyStrip (model m)) "Think:" = true) :
    ∀ d retry_count step_iter mem fuel, retry_count + d = max_retries → d + 1 ≤ fuel →
      (reactLoop evalArgs (some DEFAULT_REACT_VALID_STEPS) max_retries sw model tools
          max_iters fuel step_iter (RState.think retry_count) mem).outcome
        = ReactOutcome.raisedMaxRetry
      ∧ (reactLoop evalArgs (some DEFAULT_REACT_VALID_STEPS) max_retries sw model tools
          max_iters fuel step_iter (RState.think retry_count) mem).stepIter
        = step_iter + d + 1 := by
  intro d
  induction d with
  | zero =>
    intro r si mem fuel hr hf
    obtain ⟨fuel, rfl⟩ : ∃ f, fuel = f + 1 := ⟨fuel - 1, by omega⟩
    have hmr : max_retries ≤ r := by omega
    constructor <;> simp [reactLoop, rStepExec, thinkExec, hmr]
  | succ d ih =>
    intro r si mem fuel hr hf
    obtain ⟨fuel, rfl⟩ : ∃ f, fuel = f + 1 := ⟨fuel - 1, by omega⟩
    have hmr : ¬ max_retries ≤ r := by omega
    have h2 := ih (r + 1) (si + 1) (add_to_memory sw mem "assistant" (model mem)) fuel
      (by omega) (by omega)
    refine ⟨?_, ?_⟩ <;>
      simp only [reactLoop, rStepExec, thinkExec, hmr, hm mem, vsDefThinkThink]
    · simp [h2.1]
    · simp [h2.2]
      omega

/-! ## Claim theorems -/

/-- C1: `validate_step(from, to)` is claimed to return true iff `to` is
in the table's permitted set for `from`.  The code disagrees with its own
docstring ("Returns: bool: True if the step is valid"): on a permitted
transition it returns `False`.  The other behaviors hold: a falsy table
(none or empty) returns `True`, a missing `from` key raises
`StateStepError`, and a `to` outside the permitted set raises
`StateStepError`. -/
theorem validate_step_code_bug :
    validate_step (some [("A", ["B"])]) "A" "B" = Except.ok false
    ∧ validate_step none "A" "B" = Except.ok true
    ∧ validate_step (some []) "A" "B" = Except.ok true
    ∧ (∃ m, validate_step (some [("A", ["B"])]) "C" "B" = Except.error m)
    ∧ (∃ m, validate_step (some [("A", ["B"])]) "A" "C" = Except.error m) := by
  exact ⟨rfl, rfl, rfl, ⟨_, rfl⟩, ⟨_, rfl⟩⟩

/-- C4: every Error-state execution appends exactly one entry to memory,
as role `assistant`, and returns the machine's Reasoning-kind state: the
ReAct `ErrorState.execute` returns `ThinkState` with retry counter 0,
and `AgentErrorState.execute` returns a fresh `AgentLLMState` (which
carries no retry counter). -/
theorem error_state_single_append :
    (∀ sw e mem, ∃ c, errorExec sw e mem
        = ⟨mem ++ [⟨"assistant", c⟩], Except.ok (RState.think 0), []⟩)
    ∧ (∀ sw e mem, ∃ c, agentErrorExec sw e mem
        = (mem ++ [⟨"assistant", c⟩], AState.llm)) :=
  ⟨fun _ _ _ => ⟨_, rfl⟩, fun _ _ _ => ⟨_, rfl⟩⟩

/-- C10: under `DEFAULT_REACT_VALID_STEPS` the only permitted successor
of ERROR is END, yet `ErrorState.execute` always returns a `ThinkState`
and never calls `validate_step` (its validated-transition trace is
empty); had the transition been checked it would have been rejected. -/
theorem error_to_think_unchecked :
    (∀ sw e mem,
        (errorExec sw e mem).validated = []
        ∧ (errorExec sw e mem).result = Except.ok (RState.think 0)
        ∧ ∃ c, (errorExec sw e mem).memory = mem ++ [c])
    ∧ ttLookup DEFAULT_REACT_VALID_STEPS "ERROR" = some ["END"]
    ∧ (∃ m, validate_step (some DEFAULT_REACT_VALID_STEPS) "ERROR" "THINK" = Except.error m) := by
  refine ⟨fun sw e mem => ⟨rfl, rfl, ⟨_, rfl⟩⟩, rfl, ⟨_, rfl⟩⟩

/-- C2: `Tool.__call__` never raises — a raised exception inside the
wrapped function is caught by `Tool.execute` and returned as `str(e)` —
so for registries whose entries are all `Tool`-wrapped, the `except`
branch that converts a raised tool failure into a `ToolExecutionError`
state is unreachable, both in the ReAct `ActState.execute` and in
`AgentLLMState.execute`. -/
theorem tool_wrapper_never_raises :
    (∀ (A : Type) (tool : A → Except String String) (a : A),
        Tool.call tool a = Except.ok (Tool.execute tool a))
    ∧ (∀ (A : Type) (evalArgs : String → Except String A) vs sw
        (raw : List (String × (A → Except String String))) mem,
        (actExec evalArgs vs sw (raw.map fun p => (p.1, Tool.call p.2)) mem).toolExecRaised
          = false)
    ∧ (∀ (A : Type) (evalArgs : String → Except String A) vs sw model
        (raw : List (String × (A → Except String String))) mem,
        (llmExec evalArgs vs sw model (raw.map fun p => (p.1, Tool.call p.2)) mem).toolExecRaised
          = false) := by
  refine ⟨fun _ _ _ => rfl, ?_, ?_⟩
  · intro A evalArgs vs sw raw mem
    simp only [actExec]
    split
    · rfl
    next tn ta _ =>
      rw [regLookup_map Tool.call raw tn]
      cases regLookup raw tn with
      | none => rfl
      | some f =>
        simp only [Option.map_some', Tool.call]
        split <;> rfl
  · intro A evalArgs vs sw model raw mem
    simp only [llmExec]
    split
    · rfl
    next tn ta _ =>
      by_cases hn : tn = "None"
      · simp [hn]
      · rw [if_neg hn, regLookup_map Tool.call raw tn]
        cases regLookup raw tn with
        | none => rfl
        | some f =>
          simp only [Option.map_some', Tool.call]
          split <;> rfl

/-- C5: a `ThinkState` whose retry counter has reached `max_retries`
raises `MaxRetryError` immediately: the model is not called and memory
is unchanged. -/
theorem think_retry_exhaust_no_model_call
    (valid_steps : Option TransitionTable) (max_retries : Nat)
    (stop_word : Option String) (model : List Msg → String)
    (retry_count : Nat) (memory : List Msg)
    (h : max_retries ≤ retry_count) :
    thinkExec valid_steps max_retries stop_word model retry_count memory
      = ⟨false, memory,
          Except.error (AgErr.maxRetry ("Max retries " ++ toString max_retries ++ " reached.")),
          []⟩ := by
  unfold thinkExec
  rw [if_pos h]

/-- Witness for C5: the default configuration with retry counter 3 and
`max_retries` 3 raises without calling the model or touching memory. -/
theorem think_retry_exhaust_no_model_call_witness :
    3 ≤ 3
    ∧ thinkExec (some DEFAULT_REACT_VALID_STEPS) 3 (some "PAUSE") (fun _ => "Think: go") 3
        [⟨"system", "sys"⟩]
      = ⟨false, [⟨"system", "sys"⟩],
          Except.error (AgErr.maxRetry ("Max retries " ++ toString 3 ++ " reached.")), []⟩ :=
  ⟨Nat.le_refl 3,
    think_retry_exhaust_no_model_call (some DEFAULT_REACT_VALID_STEPS) 3 (some "PAUSE")
      (fun _ => "Think: go") 3 [⟨"system", "sys"⟩] (Nat.le_refl 3)⟩

/-- C3 counterexample: under the default configuration with retry counter
0 (< max-retries 3), a model response `"blah"` with an unrecognized
leading label makes `ThinkState.execute` call the model and transition
to an Error state while leaving Conversation Memory unchanged — the raw
response is not appended as role `assistant`, contradicting the claim
that it is appended also in the unrecognized case. -/
theorem think_unrecognized_no_append_cex :
    thinkExec (some DEFAULT_REACT_VALID_STEPS) 3 (some "PAUSE") (fun _ => "blah") 0
        [⟨"system", "sys"⟩, ⟨"user", "question PAUSE"⟩]
      = ⟨true, [⟨"system", "sys"⟩, ⟨"user", "question PAUSE"⟩],
          Except.ok (RState.error (thinkErrorMsg "blah")), [("THINK", "ERROR")]⟩ := rfl

/-- C3 amended: for a Reasoning-state execution with retry counter below
max-retries under the default table, the model is called, and the raw
response is appended to memory as role `assistant` exactly when its
leading label is recognized (`Think:`, `Act:` or `End:`); in the
unrecognized branch nothing is appended and an Error state carrying the
corrective message is returned. -/
theorem think_appends_only_recognized
    (max_retries : Nat) (stop_word : Option String) (model : List Msg → String)
    (retry_count : Nat) (memory : List Msg)
    (h : retry_count < max_retries) :
    (thinkExec (some DEFAULT_REACT_VALID_STEPS) max_retries stop_word model
        retry_count memory).modelCalled = true
    ∧ (recognizedLabel (model memory) = true →
        (thinkExec (some DEFAULT_REACT_VALID_STEPS) max_retries stop_word model
            retry_count memory).memory
          = add_to_memory stop_word memory "assistant" (model memory))
    ∧ (recognizedLabel (model memory) = false →
        (thinkExec (some DEFAULT_REACT_VALID_STEPS) max_retries stop_word model
            retry_count memory).memory = memory
        ∧ (thinkExec (some DEFAULT_REACT_VALID_STEPS) max_retries stop_word model
            retry_count memory).result
          = Except.ok (RState.error (thinkErrorMsg (model memory)))) := by
  have hlt : ¬ max_retries ≤ retry_count := Nat.not_le.mpr h
  unfold thinkExec recognizedLabel
  rw [if_neg hlt]
  cases hT : pyStartsWith (pyStrip (model memory)) "Think:" with
  | true => simp [hT, vsDefThinkThink]
  | false =>
    cases hA : pyStartsWith (pyStrip (model memory)) "Act:" with
    | true => simp [hT, hA, vsDefThinkAct]
    | false =>
      cases hE : pyStartsWith (pyStrip (model memory)) "End:" with
      | true => simp [hT, hA, hE, vsDefThinkEnd]
      | false => simp [hT, hA, hE, vsDefThinkError]

/-- Witness for C3's amended theorem: with a model answering
`"Think: go"` the response is appended; the hypothesis 0 < 3 holds. -/
theorem think_appends_only_recognized_witness :
    (0 : Nat) < 3
    ∧ (recognizedLabel "Think: go" = true →
        (thinkExec (some DEFAULT_REACT_VALID_STEPS) 3 (some "PAUSE")
            (fun _ => "Think: go") 0 [⟨"system", "sys"⟩]).memory
          = add_to_memory (some "PAUSE") [⟨"system", "sys"⟩] "assistant" "Think: go") :=
  ⟨Nat.zero_lt_succ 2,
    (think_appends_only_recognized 3 (some "PAUSE") (fun _ => "Think: go") 0
      [⟨"system", "sys"⟩] (Nat.zero_lt_succ 2)).2.1⟩

/-- C6: when the parsed tool name is the literal `"None"`,
`AgentLLMState.execute` returns an End state carrying the raw response,
with no registry lookup and no tool invocation (the response itself was
already appended to memory before parsing). -/
theorem tool_none_routes_to_end {A : Type} (evalArgs : String → Except String A)
    (vs : Option TransitionTable) (sw : Option String) (model : List Msg → String)
    (tools : List (String × (A → Except String String))) (memory : List Msg)
    (a : A)
    (h : parseResponse evalArgs none "tool" "args" (model memory) = Except.ok ("None", a)) :
    llmExec evalArgs vs sw model tools memory
      = ⟨add_to_memory sw memory "assistant" (model memory),
          Except.ok (AState.endState (model memory)), false, false, false⟩ := by
  simp only [llmExec]
  rw [h]
  simp

/-- Witness for C6: a concrete response `<tool>None</tool><args>0</args>`
parses to tool name `"None"` and routes to the End state. -/
theorem tool_none_routes_to_end_witness :
    parseResponse (fun _ => Except.ok 0) none "tool" "args"
        "<tool>None</tool><args>0</args>" = Except.ok ("None", 0)
    ∧ llmExec (fun _ => Except.ok 0) (some AGENT_VALID_STEPS) none
        (fun _ => "<tool>None</tool><args>0</args>")
        [("add", fun _ => Except.ok "3")] [⟨"system", "sys"⟩]
      = ⟨add_to_memory none [⟨"system", "sys"⟩] "assistant" "<tool>None</tool><args>0</args>",
          Except.ok (AState.endState "<tool>None</tool><args>0</args>"),
          false, false, false⟩ :=
  ⟨rfl,
    tool_none_routes_to_end (fun _ => Except.ok 0) (some AGENT_VALID_STEPS) none
      (fun _ => "<tool>None</tool><args>0</args>") [("add", fun _ => Except.ok "3")]
      [⟨"system", "sys"⟩] 0 rfl⟩

/-- C8 counterexample: take stop word `"PAUSE"` and content
`"done PAUSE "` (trailing space).  The content does not end with the
stop word, so the claim predicts the stored content is the content
followed by the stop word (then trimmed), i.e. `"done PAUSE  PAUSE"`;
the code instead tests the *trimmed* content, appends nothing, and
stores `"done PAUSE"`. -/
theorem add_to_memory_trim_cex :
    pyEndsWith "done PAUSE " "PAUSE" = false
    ∧ add_to_memory (some "PAUSE") [] "assistant" "done PAUSE "
        = [⟨"assistant", "done PAUSE"⟩]
    ∧ pyStrip ("done PAUSE " ++ " " ++ "PAUSE") = "done PAUSE  PAUSE"
    ∧ ("done PAUSE" : String) ≠ "done PAUSE  PAUSE" :=
  ⟨rfl, rfl, rfl, by decide⟩

/-- C8 amended: `append(role, content)` always stores exactly one new
entry at the end of memory, leaving all prior entries unchanged; with a
non-empty stop word configured, if the *whitespace-trimmed* content does
not already end with the stop word the stored content is the original
content followed by the stop word, trimmed; otherwise (and with no stop
word) the stored content is the trimmed original. -/
theorem add_to_memory_amended (sw : String) (mem : List Msg) (role content : String)
    (h : sw ≠ "") :
    (pyEndsWith (pyStrip content) sw = false →
      add_to_memory (some sw) mem role content
        = mem ++ [⟨role, pyStrip (content ++ " " ++ sw)⟩])
    ∧ (pyEndsWith (pyStrip content) sw = true →
      add_to_memory (some sw) mem role content = mem ++ [⟨role, pyStrip content⟩])
    ∧ add_to_memory none mem role content = mem ++ [⟨role, pyStrip content⟩]
    ∧ (add_to_memory (some sw) mem role content).length = mem.length + 1
    ∧ (add_to_memory (some sw) mem role content).take mem.length = mem := by
  refine ⟨?_, ?_, rfl, ?_, ?_⟩
  · intro he
    unfold add_to_memory
    simp [stopWordTruthy, h, he]
  · intro he
    unfold add_to_memory
    simp [stopWordTruthy, h, he]
  · unfold add_to_memory
    split <;> simp
  · unfold add_to_memory
    split <;> simp [List.take_left]

/-- C7 counterexample: a `ReActAgent` run with iteration ceiling
`max_iters = 1`, `max_retries = 3`, and a model that always answers
`"Think: again"`.  The claim predicts the loop halts after exactly 1
iteration with a normal iteration-limit termination; instead the loop
keeps iterating past the ceiling (printing the iteration-limit message
once, `reported = 1`, without breaking) and terminates only at
`step_iter = 4` by raising `MaxRetryError`. -/
theorem react_ceiling_not_enforced_cex :
    (reactRun (fun _ => Except.ok 0) (some DEFAULT_REACT_VALID_STEPS) 3 (some "PAUSE")
        (fun _ => "Think: again") [] 1 "sys" "question" 10).outcome
      = ReactOutcome.raisedMaxRetry
    ∧ (reactRun (fun _ => Except.ok 0) (some DEFAULT_REACT_VALID_STEPS) 3 (some "PAUSE")
        (fun _ => "Think: again") [] 1 "sys" "question" 10).stepIter = 4
    ∧ (reactRun (fun _ => Except.ok 0) (some DEFAULT_REACT_VALID_STEPS) 3 (some "PAUSE")
        (fun _ => "Think: again") [] 1 "sys" "question" 10).reported = 1 :=
  ⟨rfl, rfl, rfl⟩

/-- C7 (amended): the `FSMAgent` driver loop terminates exactly on one
of: End state reached, iteration counter at the ceiling (a normal
reported termination), caught `RetryExhausted`, or a propagated
state-execution exception — never on the fuel artifact — and
`endReached` really means the current state is an End state; with a
state machine whose executions always return non-End states without
raising (here: the agent machine under a model whose output never
parses), the loop halts after exactly the ceiling number of iterations
without an End state.  The `ReActAgent` driver loop, in contrast, does
not stop at the ceiling: under a model that always answers
continue-reasoning it terminates by raising `RetryExhausted` after
`max_retries + 1` Reasoning executions, whatever the ceiling. -/
theorem driver_termination_amended :
    (∀ (σ : Type) (exec : σ → List Msg → List Msg × Except AgErr σ)
        (isEnd : σ → Bool) (max_iters fuel step_iter : Nat) (s : σ) (mem : List Msg),
        step_iter + fuel = max_iters →
        (fsmLoop exec isEnd max_iters fuel step_iter s mem).outcome ≠ FsmOutcome.fuelOut)
    ∧ (∀ (σ : Type) (exec : σ → List Msg → List Msg × Except AgErr σ)
        (isEnd : σ → Bool) (max_iters fuel step_iter : Nat) (s : σ) (mem : List Msg),
        (fsmLoop exec isEnd max_iters fuel step_iter s mem).outcome = FsmOutcome.endReached →
        isEnd (fsmLoop exec isEnd max_iters fuel step_iter s mem).state = true)
    ∧ (∀ (A : Type) (e0 : String) (vs : Option TransitionTable) (sw : Option String)
        (model : List Msg → String) (tools : List (String × (A → Except String String)))
        (max_iters : Nat) (message : String) (mem : List Msg),
        (fsmRun (aStepExec (fun _ => Except.error e0) vs sw model tools) isEndA max_iters
            (AState.start message) mem).outcome = FsmOutcome.iterLimit
        ∧ (fsmRun (aStepExec (fun _ => Except.error e0) vs sw model tools) isEndA max_iters
            (AState.start message) mem).stepIter = max_iters
        ∧ isEndA (fsmRun (aStepExec (fun _ => Except.error e0) vs sw model tools) isEndA
            max_iters (AState.start message) mem).state = false)
    ∧ (∀ (A : Type) (evalArgs : String → Except String A) (sw : Option String)
        (model : List Msg → String) (tools : List (String × (A → Except String String)))
        (max_iters max_retries fuel step_iter : Nat) (mem : List Msg),
        (∀ m, pyStartsWith (pyStrip (model m)) "Think:" = true) →
        max_retries + 1 ≤ fuel →
        (reactLoop evalArgs (some DEFAULT_REACT_VALID_STEPS) max_retries sw model tools
            max_iters fuel step_iter (RState.think 0) mem).outcome
          = ReactOutcome.raisedMaxRetry
        ∧ (reactLoop evalArgs (some DEFAULT_REACT_VALID_STEPS) max_retries sw model tools
            max_iters fuel step_iter (RState.think 0) mem).stepIter
          = step_iter + max_retries + 1) := by
  refine ⟨?_, ?_, ?_, ?_⟩
  · intro σ exec isEnd mi fuel si s mem h
    exact fsmLoop_no_fuelOut exec isEnd mi fuel si s mem h
  · intro σ exec isEnd mi fuel si s mem h
    exact fsmLoop_endReached_isEnd exec isEnd mi fuel si s mem h
  · intro A e0 vs sw model tools mi message mem
    exact fsmLoop_nonend_iterLimit (aStepExec (fun _ => Except.error e0) vs sw model tools)
      isEndA mi (aStep_parse_fail_nonend A e0 vs sw model tools) mi 0
      (AState.start message) mem rfl (by omega)
  · intro A evalArgs sw model tools mi mr fuel si mem hm hf
    exact reactLoop_thinkForever A evalArgs sw model tools mi mr hm mr 0 si mem fuel
      (by omega) hf

/-- Witness for C7's amended theorem: concrete instantiations of the
hypothesis-bearing conjuncts — a ceiling-2 agent run with an unparseable
model, an already-End state, and a think-forever ReAct run with
`max_retries = 3` and fuel 5. -/
theorem driver_termination_amended_witness :
    ((fsmLoop (aStepExec (fun _ : String => (Except.error "boom" : Except String Nat))
          (some AGENT_VALID_STEPS) none (fun _ => "hello") []) isEndA 2 2 0
        (AState.start "hi") [⟨"system", "sys"⟩]).outcome ≠ FsmOutcome.fuelOut)
    ∧ (isEndA (fsmLoop (aStepExec (fun _ : String => (Except.error "boom" : Except String Nat))
          (some AGENT_VALID_STEPS) none (fun _ => "hello") []) isEndA 2 2 0
        (AState.endState "done") [⟨"system", "sys"⟩]).state = true)
    ∧ ((reactLoop (fun _ : String => (Except.ok 0 : Except String Nat))
          (some DEFAULT_REACT_VALID_STEPS) 3 none (fun _ => "Think: again") [] 20 5 0
          (RState.think 0) []).outcome = ReactOutcome.raisedMaxRetry
        ∧ (reactLoop (fun _ : String => (Except.ok 0 : Except String Nat))
            (some DEFAULT_REACT_VALID_STEPS) 3 none (fun _ => "Think: again") [] 20 5 0
            (RState.think 0) []).stepIter = 0 + 3 + 1) :=
  ⟨driver_termination_amended.1 AState
      (aStepExec (fun _ : String => (Except.error "boom" : Except String Nat))
        (some AGENT_VALID_STEPS) none (fun _ => "hello") []) isEndA 2 2 0
      (AState.start "hi") [⟨"system", "sys"⟩] rfl,
    driver_termination_amended.2.1 AState
      (aStepExec (fun _ : String => (Except.error "boom" : Except String Nat))
        (some AGENT_VALID_STEPS) none (fun _ => "hello") []) isEndA 2 2 0
      (AState.endState "done") [⟨"system", "sys"⟩] rfl,
    driver_termination_amended.2.2.2 Nat (fun _ : String => (Except.ok 0 : Except String Nat))
      none (fun _ => "Think: again") [] 20 3 5 0 [] (fun _ => rfl) (by decide)⟩

/-- C9: every memory operation of every state and of both drivers only
appends: `add_to_memory` adds one entry at the end; every ReAct and
agent state execution yields `mem ++ suffix`; and along any run of
either driver — with any fuel, so every reachable point of the loop is
covered — the memory keeps the initial system-prompt entry as its first
element and all earlier entries as an unchanged prefix. -/
theorem memory_append_only_invariant :
    (∀ sw mem role content, ∃ e, add_to_memory sw mem role content = mem ++ [e])
    ∧ (∀ (A : Type) (evalArgs : String → Except String A) vs mr sw model
        (tools : List (String × (A → Except String String))) s mem,
        ∃ t, (rStepExec evalArgs vs mr sw model tools s mem).1 = mem ++ t)
    ∧ (∀ (A : Type) (evalArgs : String → Except String A) vs sw model
        (tools : List (String × (A → Except String String))) s mem,
        ∃ t, (aStepExec evalArgs vs sw model tools s mem).1 = mem ++ t)
    ∧ (∀ (A : Type) (evalArgs : String → Except String A) vs mr sw model
        (tools : List (String × (A → Except String String))) max_iters
        system_prompt message fuel,
        ∃ t, (reactRun evalArgs vs mr sw model tools max_iters system_prompt message
            fuel).memory = ⟨"system", system_prompt⟩ :: t)
    ∧ (∀ (A : Type) (evalArgs : String → Except String A) vs sw model
        (tools : List (String × (A → Except String String))) max_iters message
        system_prompt,
        ∃ t, (fsmRun (aStepExec evalArgs vs sw model tools) isEndA max_iters
            (AState.start message) [⟨"system", system_prompt⟩]).memory
          = ⟨"system", system_prompt⟩ :: t) := by
  refine ⟨fun sw mem role content => add_to_memory_append sw mem role content,
    fun A evalArgs vs mr sw model tools s mem =>
      rStep_mem_mono A evalArgs vs mr sw model tools s mem,
    fun A evalArgs vs sw model tools s mem =>
      aStep_mem_mono A evalArgs vs sw model tools s mem, ?_, ?_⟩
  · intro A evalArgs vs mr sw model tools mi sp msg fuel
    obtain ⟨t, ht⟩ := reactLoop_mem_mono A evalArgs vs mr sw model tools mi fuel 0
      (RState.think 0) (add_to_memory sw [⟨"system", sp⟩] "user" msg)
    obtain ⟨e, he⟩ := add_to_memory_append sw [⟨"system", sp⟩] "user" msg
    refine ⟨e :: t, ?_⟩
    unfold reactRun
    rw [ht, he]
    rfl
  · intro A evalArgs vs sw model tools mi msg sp
    obtain ⟨t, ht⟩ := fsmLoop_mem_mono (aStepExec evalArgs vs sw model tools) isEndA mi
      (aStep_mem_mono A evalArgs vs sw model tools) mi 0 (AState.start msg)
      [⟨"system", sp⟩]
    refine ⟨t, ?_⟩
    unfold fsmRun
    rw [ht]
    rfl

/-- Witness for C8's amended theorem: content `"hi"` with stop word
`"PAUSE"` stores `"hi PAUSE"` as one new entry. -/
theorem add_to_memory_amended_witness :
    ("PAUSE" : String) ≠ ""
    ∧ add_to_memory (some "PAUSE") [⟨"system", "sys"⟩] "user" "hi"
        = [⟨"system", "sys"⟩] ++ [⟨"user", pyStrip ("hi" ++ " " ++ "PAUSE")⟩] :=
  ⟨by decide,
    (add_to_memory_amended "PAUSE" [⟨"system", "sys"⟩] "user" "hi" (by decide)).1 rfl⟩

end Aitelier
